import Mathlib

/-!
Shallow embedding of the comlink2 RPC core (src/src/remoteObject.ts and the
sub-channel multiplexer createChannel in src/src/endpoint.ts), together with
theorems settling the specification claims about it.

JavaScript values are modelled by the inductive `JSVal`; the handlers
installed by `expose` and `wrap` become pure step functions over inbound
messages (`expStep`, `clientStep`); host function calls and constructions
performed by the dispatcher are supplied as oracles, and the global id
allocator `getId` is modelled with an explicit counter state and a stream of
crypto.randomUUID draws.
-/

namespace Comlink

/-- JavaScript values, as far as the RPC layer inspects them. Objects carry
their own enumerable string-keyed properties in order; functions are opaque
tags; `undefined` is `undefined`. -/
inductive JSVal where
  | undefined
  | null
  | bool (b : Bool)
  | num (n : Int)
  | str (s : String)
  | fn (tag : Nat)
  | obj (fields : List (String × JSVal))
  | arr (elems : List JSVal)

/-- JavaScript truthiness (NaN and -0 are not modelled; `num 0` and the empty
string are the falsy numbers/strings). -/
def truthy : JSVal → Bool
  | .undefined => false
  | .null => false
  | .bool b => b
  | .num n => !(n == 0)
  | .str s => !(s == "")
  | .fn _ => true
  | .obj _ => true
  | .arr _ => true

/-- The `typeof` operator. -/
def jsTypeof : JSVal → String
  | .undefined => "undefined"
  | .null => "object"
  | .bool _ => "boolean"
  | .num _ => "number"
  | .str _ => "string"
  | .fn _ => "function"
  | .obj _ => "object"
  | .arr _ => "object"

def isFunction : JSVal → Bool
  | .fn _ => true
  | _ => false

def isUndef : JSVal → Bool
  | .undefined => true
  | _ => false

def isArr : JSVal → Bool
  | .arr _ => true
  | _ => false

/-- First binding of a key in an object's field list (JS objects hold at most
one property per key; the list form keeps the first). -/
def fieldLookup : List (String × JSVal) → String → Option JSVal
  | [], _ => none
  | (k, v) :: rest, key => if k == key then some v else fieldLookup rest key

/-- Property read `v.key` for the protocol fields the RPC layer reads
(`channel`, `id`, `type`, `data`, `payload`, `keyChain`, `args`). Reads on
primitives yield undefined; the handlers only reach this after a truthiness
guard, so undefined/null receivers do not occur here (the one place the code
can read a property of a possibly-undefined value, `unwrapArg`, models the
thrown TypeError explicitly in `decodeArg`). -/
def jsGet (v : JSVal) (key : String) : JSVal :=
  match v with
  | .obj fields => (fieldLookup fields key).getD .undefined
  | _ => .undefined

/-- Strict equality `v === s` against a string literal. -/
def strictEqStr (v : JSVal) (s : String) : Bool :=
  match v with
  | .str t => t == s
  | _ => false

/-- A request/object id as handed out by `getId` and used as a `promiseMap`
key: a number or a UUID string. -/
inductive RId where
  | num (n : Int)
  | str (s : String)
deriving DecidableEq, Repr

def ridVal : RId → JSVal
  | .num n => .num n
  | .str s => .str s

/-- Strict equality `k === v` between a stored id and a value off the wire. -/
def ridEqVal (k : RId) (v : JSVal) : Bool :=
  match k, v with
  | .num n, .num m => n == m
  | .str s, .str t => s == t
  | _, _ => false

/-- `pat` leads the character list. -/
def leadsWith : List Char → List Char → Bool
  | [], _ => true
  | _ :: _, [] => false
  | a :: as, b :: bs => a == b && leadsWith as bs

/-- `pat` occurs contiguously somewhere in the character list. -/
def occursIn (pat : List Char) : List Char → Bool
  | [] => leadsWith pat []
  | c :: cs => leadsWith pat (c :: cs) || occursIn pat cs

/-- `s.includes(pat)`: pat occurs contiguously inside s. -/
def strContains (s pat : String) : Bool := occursIn pat.data s.data

def errKeyChainArray : String := "Invalid keyChain: must be an array"
def errKeyChainUnsafe : String := "Invalid keyChain: contains unsafe property names"
def errCallNotObject : String := "Invalid RPC call: not an object"
def errCallMissing : String := "Invalid RPC call: missing id or type"
def errArgsArray : String := "Invalid RPC call: args must be an array"
def errNotFunction (name : String) : String :=
  "Target \x27" ++ name ++ "\x27 is not a function"
def errNonObject (p : String) : String :=
  "Cannot access property \x27" ++ p ++ "\x27 on non-object"
def errNotFound (p : String) : String :=
  "Property \x27" ++ p ++ "\x27 not found or not accessible"

/-- A key failing assertValidKeyChain's element test: not a string, or
containing one of the reserved substrings. -/
def badKey (k : JSVal) : Bool :=
  match k with
  | .str s =>
      strContains s "__proto__" || strContains s "prototype" ||
      strContains s "constructor"
  | _ => true

/-- assertValidKeyChain: must be an array whose elements all pass `badKey`;
on success the chain is the underlying string list. -/
def validKeyChain (v : JSVal) : Except String (List String) :=
  match v with
  | .arr ks =>
      if ks.any badKey then .error errKeyChainUnsafe
      else .ok (ks.map (fun k => match k with | .str s => s | _ => ""))
  | _ => .error errKeyChainArray

/-- assertValidRPCCall, in the order the code checks: object, id/type
present, keyChain valid, args an array for call/construct. -/
def validRPCCall (m : JSVal) : Except String (List String) :=
  if !(truthy m) || !(jsTypeof m == "object") then .error errCallNotObject
  else if isUndef (jsGet m "id") || !(truthy (jsGet m "type")) then
    .error errCallMissing
  else
    match validKeyChain (jsGet m "keyChain") with
    | .error e => .error e
    | .ok ks =>
        if (strictEqStr (jsGet m "type") "call" ||
            strictEqStr (jsGet m "type") "construct") &&
            !(isArr (jsGet m "args")) then .error errArgsArray
        else .ok ks

/-- Result of `unwrapArg`: an inline value, or a sub-proxy speaking over the
sub-channel whose tag is the id carried by the wraped marker. -/
inductive Decoded where
  | inline (v : JSVal)
  | proxy (chan : JSVal)

/-- unwrapArg. Reading `data.type` throws a TypeError when data is undefined
or null; `{type:"any"}` yields the inline payload; `{type:"wraped"}` yields a
proxy over `createChannel(ep, data.id)`; any other type falls off the end of
the function and returns undefined. -/
def decodeArg (d : JSVal) : Except String Decoded :=
  match d with
  | .undefined => .error "TypeError"
  | .null => .error "TypeError"
  | _ =>
      if strictEqStr (jsGet d "type") "any" then .ok (.inline (jsGet d "data"))
      else if strictEqStr (jsGet d "type") "wraped" then
        .ok (.proxy (jsGet d "id"))
      else .ok (.inline .undefined)

/-- The module-level WeakSet `markedObj` is declared but never added to
anywhere in the repository, so membership is constantly false. -/
def markedObj (_v : JSVal) : Bool := false

/-- `Object.values(fields).some(v => typeof v === "function")`. -/
def hasFnValue : List (String × JSVal) → Bool
  | [] => false
  | (_, v) :: rest => isFunction v || hasFnValue rest

/-- wrapArg's classification, with `w` the incoming `wrap` parameter (false
by default at the call sites; the construct branch passes true). A function
forces wrapping; a truthy non-array object *recomputes* `w` from its own
enumerable values; otherwise a marked value forces wrapping; otherwise the
incoming flag stands. -/
def mustWrap (v : JSVal) (w : Bool) : Bool :=
  if isFunction v then true
  else if truthy v && jsTypeof v == "object" && !(isArr v) then
    match v with
    | .obj fields => hasFnValue fields
    | _ => false
  else if markedObj v then true
  else w

/-- The inline encoding `{type:"any", data:v}`. -/
def anyObj (v : JSVal) : JSVal := .obj [("type", .str "any"), ("data", v)]

/-- The wrapped encoding `{type:"wraped", id}`. -/
def wrapedObj (i : RId) : JSVal := .obj [("type", .str "wraped"), ("id", ridVal i)]

/-- wrapArg: classify via `mustWrap`; when wrapping, `fresh` is the object id
getId would allocate and the value is exposed on sub-channel `fresh` (the
exposure itself is not part of the returned wire data). -/
def wrapArg (v : JSVal) (fresh : RId) (w : Bool) : JSVal :=
  if mustWrap v w then wrapedObj fresh else anyObj v

/-- One step of getKeyChain: assertPropertyExists (truthy object receiver
owning the property) and then the read `currentObject[p]`. Plain objects own
their field list; arrays own their canonical indices and `length`. -/
def ownGet (cur : JSVal) (p : String) : Except String JSVal :=
  if !(truthy cur) || !(jsTypeof cur == "object") then .error (errNonObject p)
  else
    match cur with
    | .obj fields =>
        match fieldLookup fields p with
        | some v => .ok v
        | none => .error (errNotFound p)
    | .arr es =>
        if p == "length" then .ok (.num es.length)
        else
          match p.toNat? with
          | some i =>
              if toString i == p then
                match es[i]? with
                | some v => .ok v
                | none => .error (errNotFound p)
              else .error (errNotFound p)
          | none => .error (errNotFound p)
    | _ => .error (errNotFound p)

/-- getKeyChain's loop (its own assertValidKeyChain has already succeeded by
the time the dispatcher calls it). Alongside the result or error, returns the
keys whose presence on the walked objects was actually probed: all of them on
success, the prefix up to and including the failing key otherwise. -/
def walkChain (cur : JSVal) : List String → Except (String × List String) (JSVal × List String)
  | [] => .ok (cur, [])
  | p :: ps =>
      match ownGet cur p with
      | .error e => .error (e, [p])
      | .ok v =>
          match walkChain v ps with
          | .ok (r, tr) => .ok (r, p :: tr)
          | .error (e, tr) => .error (e, p :: tr)

/-- Behaviour of a host function under `await fn(...args)` or `new c(...)`:
the returned value, or the message of the thrown error / rejection. Supplied
as an oracle since the dispatched functions are user code. -/
abbrev HostFn := JSVal → List Decoded → Except String JSVal

/-- `d.args.map(a => unwrapArg(a, ep))`; the first throwing element aborts.
The non-array fallback `[]` is the construct branch's `Array.isArray(d.args)
? ... : []` (unreachable after validation, which already required an array). -/
def decodeArgs (v : JSVal) : Except String (List Decoded) :=
  match v with
  | .arr es => es.mapM decodeArg
  | _ => .ok []

/-- The error reply `{id: ev.data?.id, type:"error", error}`. -/
def errObj (i : JSVal) (e : String) : JSVal :=
  .obj [("id", i), ("type", .str "error"), ("error", .str e)]

/-- The success reply `{id, type:"response", data}`. -/
def respObj (i : JSVal) (d : JSVal) : JSVal :=
  .obj [("id", i), ("type", .str "response"), ("data", d)]

/-- Body of the dispatcher's try block: validate, branch on type, walk, act,
encode. Errors carry the trace of root keys probed before the failure. An
id/type combination reaching none of the three branches produces no reply. -/
def expBody (root : JSVal) (callO newO : HostFn) (fresh : RId) (m : JSVal) :
    Except (String × List String) (Option JSVal × List String) :=
  match validRPCCall m with
  | .error e => .error (e, [])
  | .ok ks =>
      if strictEqStr (jsGet m "type") "await" then
        match walkChain root ks with
        | .error etr => .error etr
        | .ok (o, tr) =>
            .ok (some (respObj (jsGet m "id") (wrapArg o fresh false)), tr)
      else if strictEqStr (jsGet m "type") "call" then
        match walkChain root ks with
        | .error etr => .error etr
        | .ok (f, tr) =>
            if !(isFunction f) then .error (errNotFunction "call target", tr)
            else
              match decodeArgs (jsGet m "args") with
              | .error e => .error (e, tr)
              | .ok args =>
                  match callO f args with
                  | .error e => .error (e, tr)
                  | .ok r =>
                      .ok (some (respObj (jsGet m "id") (wrapArg r fresh false)), tr)
      else if strictEqStr (jsGet m "type") "construct" then
        match walkChain root ks with
        | .error etr => .error etr
        | .ok (c, tr) =>
            if !(isFunction c) then .error (errNotFunction "constructor target", tr)
            else
              match decodeArgs (jsGet m "args") with
              | .error e => .error (e, tr)
              | .ok args =>
                  match newO c args with
                  | .error e => .error (e, tr)
                  | .ok inst =>
                      .ok (some (respObj (jsGet m "id") (wrapArg inst fresh true)), tr)
      else .ok (none, [])

/-- The message handler installed by `expose(root, ep)`: skip messages that
are falsy or carry a truthy channel field; otherwise run the try block and
turn a caught error into the `{id: ev.data?.id, type:"error"}` reply. Returns
the reply posted (none when silent) and the root keys probed by the walk. -/
def expStep (root : JSVal) (callO newO : HostFn) (fresh : RId) (m : JSVal) :
    Option JSVal × List String :=
  if truthy m && !(truthy (jsGet m "channel")) then
    match expBody root callO newO fresh m with
    | .ok rt => rt
    | .error (e, tr) => (some (errObj (jsGet m "id") e), tr)
  else (none, [])

/-- The module-level `promiseMap`, keyed by request id. Entries are tagged
with the numeric session that created them purely to observe which `wrap`
call a settlement belongs to; the code itself never stores or consults a
session. -/
abbrev PendingTable := List (RId × Nat)

/-- assertValidRPCResponse as a Bool (the client handler catches the throw,
so the two distinct error messages are indistinguishable): a truthy object
with a defined id whose type is exactly the string "response". -/
def validRPCResponse (m : JSVal) : Bool :=
  truthy m && jsTypeof m == "object" && !(isUndef (jsGet m "id")) &&
    strictEqStr (jsGet m "type") "response"

/-- The message handler installed by `wrap(ep)`: skip falsy or
channel-tagged data; validate; decode `d.data` (a throw here is caught and
settles nothing); look the id up in the shared table; on a hit resolve that
entry with the decoded value and delete the key. Returns the new table and
the settlement performed, if any. -/
def clientStep (m : JSVal) (t : PendingTable) :
    PendingTable × Option ((RId × Nat) × Decoded) :=
  if truthy m && !(truthy (jsGet m "channel")) then
    if validRPCResponse m then
      match decodeArg (jsGet m "data") with
      | .error _ => (t, none)
      | .ok res =>
          match t.find? (fun e => ridEqVal e.1 (jsGet m "id")) with
          | some e =>
              (t.eraseP (fun e2 => ridEqVal e2.1 (jsGet m "id")), some (e, res))
          | none => (t, none)
    else (t, none)
  else (t, none)

/-- The handler as installed by the s-th call to `wrap`: the closure uses its
endpoint only to build sub-proxies inside unwrapArg, never for the pending
table, which is the single module-level `promiseMap`; so the step function
does not depend on s. -/
def clientStepOn (_s : Nat) (m : JSVal) (t : PendingTable) :
    PendingTable × Option ((RId × Nat) × Decoded) :=
  clientStep m t

/-- Number.MAX_SAFE_INTEGER. -/
def maxSafeInteger : Nat := 9007199254740991

/-- State of the id allocator: the per-realm counter `uniqueInRealmId` and
how many crypto.randomUUID draws have been consumed. -/
structure IdGen where
  counter : Nat
  draws : Nat
deriving DecidableEq, Repr

/-- getId, with `u` the stream of successive crypto.randomUUID() results:
past the threshold return a fresh UUID without touching the counter;
otherwise increment the counter and return it. -/
def getId (u : Nat → String) (s : IdGen) : RId × IdGen :=
  if s.counter > maxSafeInteger - 1000 then
    (RId.str (u s.draws), ⟨s.counter, s.draws + 1⟩)
  else
    (RId.num ((s.counter : Int) + 1), ⟨s.counter + 1, s.draws⟩)

/-- The ids handed out by n successive getId calls from state s. -/
def idRun (u : Nat → String) : Nat → IdGen → List RId
  | 0, _ => []
  | n + 1, s => (getId u s).1 :: idRun u n (getId u s).2

/-- createChannel's outbound direction: posting v on the derived endpoint
posts `{channel: tag, payload: v}` on the base endpoint. -/
def channelPost (t : RId) (v : JSVal) : JSVal :=
  .obj [("channel", ridVal t), ("payload", v)]

/-- createChannel's inbound filter: a base-endpoint message is surfaced to
the derived endpoint's listeners iff it is truthy, of object type, and its
channel field is strictly equal to the tag; the surfaced value is then the
payload field. -/
def channelSurface (t : RId) (m : JSVal) : Option JSVal :=
  if truthy m && jsTypeof m == "object" && ridEqVal t (jsGet m "channel") then
    some (jsGet m "payload")
  else none

theorem ridEqVal_ridVal (u t : RId) : ridEqVal u (ridVal t) = true ↔ u = t := by
  cases u <;> cases t <;> simp [ridEqVal, ridVal]

theorem ridEqVal_unique {k k2 : RId} {v : JSVal} (h1 : ridEqVal k v = true)
    (h2 : ridEqVal k2 v = true) : k = k2 := by
  cases k <;> cases k2 <;> cases v <;> simp_all [ridEqVal]

/-- Inversion of a client-handler settlement: it can only happen on a message
whose id strictly equals a pending key, the settled entry was pending, and
the resulting table is the pending table with that key deleted. -/
theorem clientStep_settle_inv {m : JSVal} {t t' : PendingTable}
    {e : RId × Nat} {r : Decoded}
    (h : clientStep m t = (t', some (e, r))) :
    ridEqVal e.1 (jsGet m "id") = true ∧ e ∈ t ∧
      t' = t.eraseP (fun x => ridEqVal x.1 (jsGet m "id")) := by
  by_cases g1 : (truthy m && !(truthy (jsGet m "channel"))) = true
  · by_cases g2 : validRPCResponse m = true
    · cases hd : decodeArg (jsGet m "data") with
      | error err => simp [clientStep, g1, g2, hd] at h
      | ok res =>
          cases hfind : t.find? (fun x => ridEqVal x.1 (jsGet m "id")) with
          | none => simp [clientStep, g1, g2, hd, hfind] at h
          | some e0 =>
              have hpe := List.find?_some hfind
              have hmem := List.mem_of_find?_eq_some hfind
              simp only [clientStep, g1, g2, hd, hfind, if_pos] at h
              rw [Prod.mk.injEq, Option.some.injEq, Prod.mk.injEq] at h
              obtain ⟨h1, h2, h3⟩ := h
              subst h1 h2 h3
              exact ⟨hpe, hmem, rfl⟩
    · simp [clientStep, g1, g2] at h
  · simp [clientStep, g1] at h

/-- A message whose id matches no pending entry changes nothing and settles
nothing (whatever else is wrong or right with it). -/
theorem clientStep_unknown {m : JSVal} {t : PendingTable}
    (h : t.find? (fun x => ridEqVal x.1 (jsGet m "id")) = none) :
    clientStep m t = (t, none) := by
  by_cases g1 : (truthy m && !(truthy (jsGet m "channel"))) = true
  · by_cases g2 : validRPCResponse m = true
    · cases hd : decodeArg (jsGet m "data") with
      | error err => simp [clientStep, g1, g2, hd]
      | ok res => simp [clientStep, g1, g2, hd, h]
    · simp [clientStep, g1, g2]
  · simp [clientStep, g1]

/-- Deleting the (unique, by table nodup) entry matching an id leaves no
entry matching that id. -/
theorem find?_eraseP_none {t : PendingTable} {i : JSVal}
    (hnd : (t.map Prod.fst).Nodup) :
    (t.eraseP (fun x => ridEqVal x.1 i)).find? (fun x => ridEqVal x.1 i) = none := by
  induction t with
  | nil => rfl
  | cons a t ih =>
      rw [List.map_cons, List.nodup_cons] at hnd
      by_cases ha : ridEqVal a.1 i = true
      · rw [@List.eraseP_cons_of_pos _ a t (fun x => ridEqVal x.1 i) ha]
        cases hf : t.find? (fun x => ridEqVal x.1 i) with
        | none => rfl
        | some y =>
            have hy := List.find?_some hf
            have hmem := List.mem_of_find?_eq_some hf
            have hk : a.1 = y.1 := ridEqVal_unique ha hy
            exact absurd (hk ▸ List.mem_map_of_mem Prod.fst hmem) hnd.1
      · rw [@List.eraseP_cons_of_neg _ a t (fun x => ridEqVal x.1 i) ha,
          @List.find?_cons_of_neg _ (fun x => ridEqVal x.1 i) a _ ha]
        exact ih hnd.2

/-- Claim C1. The client handler installed by wrap rejects the pending
request when an inbound `{id, type:"error", error}` message arrives, with an
error carrying the message text, and removes the pending entry. In the code
this is false: for an exposed `boom` that throws Error("bad") the dispatcher
does emit `{id:1, type:"error", error:"bad"}` (first conjunct), but the
client handler validates inbound data with assertValidRPCResponse, which
throws on any type other than "response"; the throw is caught and logged, so
the error reply settles nothing and the pending entry survives (second
conjunct). The promise therefore never rejects, although the repository's
docs promise rejection with the thrown message. -/
theorem error_reply_dropped_by_client :
    expStep (JSVal.obj [("boom", JSVal.fn 0)]) (fun _ _ => .error "bad")
        (fun _ _ => .error "bad") (.num 2)
        (JSVal.obj [("id", .num 1), ("type", .str "call"),
          ("keyChain", .arr [.str "boom"]), ("args", .arr [])])
      = (some (errObj (.num 1) "bad"), ["boom"]) ∧
    clientStep (errObj (.num 1) "bad") [(.num 1, 0)] = ([(.num 1, 0)], none) := by
  exact ⟨rfl, rfl⟩

/-- Claim C2. Every successfully handled construct request is claimed to
reply `{type:"wraped", id}`, never inlining the instance. In the code this is
false: expose's construct branch passes the force flag (`wrapArg(i, ep,
true)`), but wrapArg's object branch unconditionally recomputes the flag from
the instance's own enumerable values, so an instance carrying no
function-valued own enumerable properties — the normal case for a class,
whose methods live on the prototype — is inlined as `{type:"any"}`. Here
`new Counter()` yields `{count: 0}` and the reply's data is
`{type:"any", data:{count:0}}`. -/
theorem construct_plain_instance_inlined :
    expStep (JSVal.obj [("Counter", JSVal.fn 0)]) (fun _ _ => .error "unused")
        (fun _ _ => .ok (JSVal.obj [("count", JSVal.num 0)])) (.num 2)
        (JSVal.obj [("id", .num 1), ("type", .str "construct"),
          ("keyChain", .arr [.str "Counter"]), ("args", .arr [])])
      = (some (respObj (.num 1) (anyObj (JSVal.obj [("count", JSVal.num 0)]))),
          ["Counter"]) := by
  rfl

/-- Claim C3, counterexample. The claim says each wrap(endpoint) holds its
own pending-request table, so a response delivered on a second wrapped
endpoint never settles a request issued through the first. False: promiseMap
is a single module-level Map shared by every wrap call. Concretely, with the
table holding the entry for id 7 created by session 1, the handler of
session 2 receiving `{id:7, type:"response", data:{type:"any", data:1}}`
resolves session 1's request and deletes the entry. -/
theorem cross_session_settlement :
    clientStepOn 2 (respObj (.num 7) (anyObj (.num 1))) [(.num 7, 1)]
      = ([], some ((.num 7, 1), .inline (.num 1))) := by
  rfl

/-- Claim C3, amended. The pending-request table is module-level state shared
by every wrap session in the realm: the handler's effect on the table does
not depend on which session's endpoint delivered the message, so a response
arriving on any wrapped endpoint settles the pending request with the equal
id, whichever proxy issued it (second conjunct shows session 2 settling
session 1's request). Sessions are disjoint in practice only because the
realm-wide allocator never hands out the same id twice. -/
theorem pending_table_shared :
    (∀ (s s2 : Nat) (m : JSVal) (t : PendingTable),
        clientStepOn s m t = clientStepOn s2 m t) ∧
    clientStepOn 2 (respObj (.num 7) (anyObj (.num 1))) [(.num 7, 1)]
      = ([], some ((.num 7, 1), .inline (.num 1))) := by
  exact ⟨fun _ _ _ _ => rfl, rfl⟩

/-- Claim C9. Every promise returned by a client proxy operation settles at
most once and only through an inbound message whose id equals the request's
id: a settlement implies the message id matched a pending entry, the entry
was pending, the table afterwards is the table with that key deleted and no
entry matching the id remains; a message whose id is not pending changes
nothing and settles nothing; and after a settlement a second message with
the same id has no effect. -/
theorem response_matching (m m2 : JSVal) (t : PendingTable)
    (hnd : (t.map Prod.fst).Nodup) :
    (∀ t' e r, clientStep m t = (t', some (e, r)) →
        ridEqVal e.1 (jsGet m "id") = true ∧ e ∈ t ∧
        t' = t.eraseP (fun x => ridEqVal x.1 (jsGet m "id")) ∧
        t'.find? (fun x => ridEqVal x.1 (jsGet m "id")) = none) ∧
    (t.find? (fun x => ridEqVal x.1 (jsGet m "id")) = none →
        clientStep m t = (t, none)) ∧
    (∀ t' e r, clientStep m t = (t', some (e, r)) →
        jsGet m2 "id" = jsGet m "id" → clientStep m2 t' = (t', none)) := by
  refine ⟨?_, fun h => clientStep_unknown h, ?_⟩
  · intro t' e r h
    obtain ⟨h1, h2, h3⟩ := clientStep_settle_inv h
    refine ⟨h1, h2, h3, ?_⟩
    rw [h3]
    exact find?_eraseP_none hnd
  · intro t' e r h hid
    obtain ⟨h1, h2, h3⟩ := clientStep_settle_inv h
    apply clientStep_unknown
    rw [hid, h3]
    exact find?_eraseP_none hnd

theorem response_matching_witness :
    (([((RId.num 1 : RId), 0)]).map Prod.fst).Nodup ∧
    clientStep (respObj (.num 3) (anyObj (.num 2))) [(RId.num 1, 0)]
      = ([(RId.num 1, 0)], none) :=
  ⟨by decide,
    (response_matching (respObj (.num 3) (anyObj (.num 2))) JSVal.undefined
      [(RId.num 1, 0)] (by decide)).2.1 (by rfl)⟩

/-- Claim C4, counterexample. A message whose keyChain holds the reserved
key "constructor" but which lacks an id is answered with the error
"Invalid RPC call: missing id or type" (the id/type check precedes the
keyChain check in assertValidRPCCall), whose text does not mention unsafe
property names — so the claim's universally quantified error-text clause
fails as stated. The chain is still never walked. -/
theorem unsafe_chain_without_id_other_error :
    expStep (JSVal.obj []) (fun _ _ => .error "unused")
        (fun _ _ => .error "unused") (.num 9)
        (JSVal.obj [("type", .str "await"), ("keyChain", .arr [.str "constructor"])])
      = (some (errObj .undefined errCallMissing), []) ∧
    strContains errCallMissing "unsafe property names" = false :=
  ⟨rfl, rfl⟩

/-- Claim C4, amended. For every bare inbound dispatcher message (truthy
object without a truthy channel field) that carries a defined id and a
truthy type, if its keyChain is an array containing any element that is not
a string or that contains one of the substrings reserved by
assertValidKeyChain, then no key of the exposed root is probed (the walk
trace is empty, and the reply does not depend on the root at all) and the
dispatcher replies `{id, type:"error"}` with the text
"Invalid keyChain: contains unsafe property names". -/
theorem unsafe_chain_rejected (root : JSVal) (cO nO : HostFn) (fresh : RId)
    (m : JSVal) (ks : List JSVal)
    (h1 : truthy m = true) (h2 : jsTypeof m = "object")
    (h3 : truthy (jsGet m "channel") = false)
    (h4 : isUndef (jsGet m "id") = false)
    (h5 : truthy (jsGet m "type") = true)
    (h6 : jsGet m "keyChain" = .arr ks)
    (h7 : ks.any badKey = true) :
    expStep root cO nO fresh m
      = (some (errObj (jsGet m "id") errKeyChainUnsafe), []) ∧
    strContains errKeyChainUnsafe "unsafe property names" = true := by
  constructor
  · simp [expStep, expBody, validRPCCall, validKeyChain, h1, h2, h3, h4, h5,
      h6, h7]
  · rfl

theorem unsafe_chain_rejected_witness :
    truthy (JSVal.obj [("id", .num 3), ("type", .str "await"),
        ("keyChain", .arr [.str "constructor"])]) = true ∧
    expStep (JSVal.obj [("a", .num 1)]) (fun _ _ => .error "unused")
        (fun _ _ => .error "unused") (.num 9)
        (JSVal.obj [("id", .num 3), ("type", .str "await"),
          ("keyChain", .arr [.str "constructor"])])
      = (some (errObj (.num 3) errKeyChainUnsafe), []) :=
  ⟨rfl,
    (unsafe_chain_rejected (JSVal.obj [("a", .num 1)])
      (fun _ _ => .error "unused") (fun _ _ => .error "unused") (.num 9)
      (JSVal.obj [("id", .num 3), ("type", .str "await"),
        ("keyChain", .arr [.str "constructor"])])
      [.str "constructor"] rfl rfl rfl rfl rfl rfl rfl).1⟩

/-- Claim C7, counterexample. The claim says a message carrying a channel
field — whatever its value — is ignored by both handlers. False: the guards
test `ev.data && !ev.data.channel`, so a falsy channel value such as 0 does
not suppress handling. Concretely a response with `channel: 0` settles the
pending promise for id 5, and a call with `channel: 0` is dispatched and
answered. -/
theorem falsy_channel_processed :
    clientStep (JSVal.obj [("channel", .num 0), ("id", .num 5),
        ("type", .str "response"), ("data", anyObj (.num 1))]) [(.num 5, 0)]
      = ([], some ((.num 5, 0), .inline (.num 1))) ∧
    expStep (JSVal.obj [("f", JSVal.fn 0)]) (fun _ _ => .ok (.num 3))
        (fun _ _ => .error "unused") (.num 9)
        (JSVal.obj [("channel", .num 0), ("id", .num 1), ("type", .str "call"),
          ("keyChain", .arr [.str "f"]), ("args", .arr [])])
      = (some (respObj (.num 1) (anyObj (.num 3))), ["f"]) :=
  ⟨rfl, rfl⟩

/-- Claim C7, amended. Every inbound message whose channel field is truthy
is ignored by both the dispatcher handler installed by expose and the
top-level client handler installed by wrap: no validation, no chain walk, no
reply, and no pending promise is settled. (A falsy channel value — 0, "",
false, null or undefined — does not mark the message as sub-channel
traffic.) -/
theorem truthy_channel_ignored (root : JSVal) (cO nO : HostFn) (fresh : RId)
    (m : JSVal) (t : PendingTable)
    (h : truthy (jsGet m "channel") = true) :
    expStep root cO nO fresh m = (none, []) ∧ clientStep m t = (t, none) := by
  constructor
  · simp [expStep, h]
  · simp [clientStep, h]

theorem truthy_channel_ignored_witness :
    truthy (jsGet (JSVal.obj [("channel", .num 1)]) "channel") = true ∧
    expStep JSVal.undefined (fun _ _ => .error "u") (fun _ _ => .error "u") (.num 1)
        (JSVal.obj [("channel", .num 1)]) = (none, []) ∧
    clientStep (JSVal.obj [("channel", .num 1)]) [] = ([], none) :=
  ⟨rfl,
    (truthy_channel_ignored JSVal.undefined (fun _ _ => .error "u")
      (fun _ _ => .error "u") (.num 1) (JSVal.obj [("channel", .num 1)]) [] rfl).1,
    (truthy_channel_ignored JSVal.undefined (fun _ _ => .error "u")
      (fun _ _ => .error "u") (.num 1) (JSVal.obj [("channel", .num 1)]) [] rfl).2⟩

/-- Claim C10, counterexample. The claim quantifies over messages with "a
type string that is none of await, call, construct" — which includes the
empty string, the one falsy string. On `{id:1, type:"", keyChain:[]}` the
validator's `!d.type` check fires and the dispatcher does send a message:
the error reply "Invalid RPC call: missing id or type". -/
theorem empty_type_sends_error :
    expStep (JSVal.obj []) (fun _ _ => .error "unused")
        (fun _ _ => .error "unused") (.num 2)
        (JSVal.obj [("id", .num 1), ("type", .str ""), ("keyChain", .arr [])])
      = (some (errObj (.num 1) errCallMissing), []) :=
  rfl

/-- Claim C10, amended. A bare message (truthy object, no truthy channel
field) with a defined id, a keyChain passing the key-safety rules, and a
non-empty type string that is none of "await", "call" or "construct" makes
the dispatcher send nothing at all — neither response nor error — and walk
no key, so the sender's pending request for that id is never settled. -/
theorem unknown_type_silent (root : JSVal) (cO nO : HostFn) (fresh : RId)
    (m : JSVal) (ks : List JSVal) (s : String)
    (h1 : truthy m = true) (h2 : jsTypeof m = "object")
    (h3 : truthy (jsGet m "channel") = false)
    (h4 : isUndef (jsGet m "id") = false)
    (h5 : jsGet m "type" = .str s) (h6 : (s == "") = false)
    (h7 : jsGet m "keyChain" = .arr ks) (h8 : ks.any badKey = false)
    (h9a : (s == "await") = false) (h9b : (s == "call") = false)
    (h9c : (s == "construct") = false) :
    expStep root cO nO fresh m = (none, []) := by
  have hts : truthy (JSVal.str s) = true := by simp [truthy, h6]
  simp [expStep, expBody, validRPCCall, validKeyChain, strictEqStr,
    h1, h2, h3, h4, h5, hts, h6, h7, h8, h9a, h9b, h9c]

theorem unknown_type_silent_witness :
    ((("ping" : String) == "") = false) ∧
    expStep (JSVal.obj [("a", .num 1)]) (fun _ _ => .error "unused")
        (fun _ _ => .error "unused") (.num 2)
        (JSVal.obj [("id", .num 1), ("type", .str "ping"), ("keyChain", .arr [])])
      = (none, []) :=
  ⟨rfl,
    unknown_type_silent (JSVal.obj [("a", .num 1)]) (fun _ _ => .error "unused")
      (fun _ _ => .error "unused") (.num 2)
      (JSVal.obj [("id", .num 1), ("type", .str "ping"), ("keyChain", .arr [])])
      [] "ping" rfl rfl rfl rfl rfl rfl rfl rfl rfl rfl rfl⟩

theorem getId_low {u : Nat → String} {s : IdGen}
    (h : s.counter ≤ maxSafeInteger - 1000) :
    getId u s = (.num ((s.counter : Int) + 1), ⟨s.counter + 1, s.draws⟩) := by
  unfold getId
  rw [if_neg (by omega)]

theorem getId_high {u : Nat → String} {s : IdGen}
    (h : maxSafeInteger - 1000 < s.counter) :
    getId u s = (.str (u s.draws), ⟨s.counter, s.draws + 1⟩) := by
  unfold getId
  rw [if_pos h]

/-- Every id produced by a run from state s is either a counter id strictly
above the starting counter or a UUID drawn at or after the starting draw
position. -/
theorem idRun_mem {u : Nat → String} :
    ∀ {n : Nat} {s : IdGen} {i : RId}, i ∈ idRun u n s →
      (∃ m : Nat, i = .num (m : Int) ∧ s.counter < m) ∨
      (∃ k : Nat, i = .str (u k) ∧ s.draws ≤ k) := by
  intro n
  induction n with
  | zero => intro s i h; simp [idRun] at h
  | succ n ih =>
      intro s i h
      rw [idRun] at h
      rcases List.mem_cons.1 h with h1 | h2
      · by_cases hc : maxSafeInteger - 1000 < s.counter
        · simp only [getId_high hc] at h1
          exact Or.inr ⟨s.draws, h1, Nat.le_refl _⟩
        · have hc2 : s.counter ≤ maxSafeInteger - 1000 := by omega
          simp only [getId_low hc2] at h1
          refine Or.inl ⟨s.counter + 1, ?_, Nat.lt_succ_self _⟩
          rw [h1]; push_cast; ring_nf
      · by_cases hc : maxSafeInteger - 1000 < s.counter
        · simp only [getId_high hc] at h2
          rcases ih h2 with ⟨m, him, hlt⟩ | ⟨k, hik, hk⟩
          · exact Or.inl ⟨m, him, hlt⟩
          · have hk2 : s.draws + 1 ≤ k := hk
            exact Or.inr ⟨k, hik, by omega⟩
        · have hc2 : s.counter ≤ maxSafeInteger - 1000 := by omega
          simp only [getId_low hc2] at h2
          rcases ih h2 with ⟨m, him, hlt⟩ | ⟨k, hik, hk⟩
          · have hlt2 : s.counter + 1 < m := hlt
            exact Or.inl ⟨m, him, by omega⟩
          · exact Or.inr ⟨k, hik, hk⟩

theorem idRun_pairwise {u : Nat → String} (hu : Function.Injective u) :
    ∀ (n : Nat) (s : IdGen), (idRun u n s).Pairwise (fun a b => a ≠ b) := by
  intro n
  induction n with
  | zero => intro s; simp [idRun]
  | succ n ih =>
      intro s
      rw [idRun]
      refine List.Pairwise.cons ?_ (ih _)
      intro i hi
      have hm := idRun_mem hi
      by_cases hc : maxSafeInteger - 1000 < s.counter
      · simp only [getId_high hc] at hm ⊢
        rcases hm with ⟨m, him, _⟩ | ⟨k, hik, hk⟩
        · rw [him]; intro hfalse; cases hfalse
        · have hk2 : s.draws + 1 ≤ k := hk
          rw [hik]
          intro hfalse
          have hinj : u s.draws = u k := by injection hfalse
          have := hu hinj
          omega
      · have hc2 : s.counter ≤ maxSafeInteger - 1000 := by omega
        simp only [getId_low hc2] at hm ⊢
        rcases hm with ⟨m, him, hlt⟩ | ⟨k, hik, _⟩
        · have hlt2 : s.counter + 1 < m := hlt
          rw [him]
          intro hfalse
          have hinj : ((s.counter : Int) + 1) = (m : Int) := by injection hfalse
          omega
        · rw [hik]; intro hfalse; cases hfalse

/-- Claim C5. All request ids handed out in one realm are pairwise distinct
(for any point in the allocator's life and any injective stream of
crypto.randomUUID draws); while the counter has not exceeded
MAX_SAFE_INTEGER − 1000 a call returns the incremented counter (so
successive counter ids are strictly increasing), and past that threshold
every call returns the next 128-bit random identifier without touching the
counter. -/
theorem request_ids_distinct (u : Nat → String) (hu : Function.Injective u) :
    (∀ (n : Nat) (s : IdGen), (idRun u n s).Pairwise (fun a b => a ≠ b)) ∧
    (∀ s : IdGen, s.counter ≤ maxSafeInteger - 1000 →
        getId u s = (.num ((s.counter : Int) + 1), ⟨s.counter + 1, s.draws⟩)) ∧
    (∀ s : IdGen, maxSafeInteger - 1000 < s.counter →
        getId u s = (.str (u s.draws), ⟨s.counter, s.draws + 1⟩)) :=
  ⟨idRun_pairwise hu, fun _ h => getId_low h, fun _ h => getId_high h⟩

/-- An injective stand-in for the stream of crypto.randomUUID draws. -/
def uuidStream (n : Nat) : String := String.mk (List.replicate n 'a')

theorem uuidStream_injective : Function.Injective uuidStream := by
  intro a b h
  have h2 : List.replicate a 'a' = List.replicate b 'a' := congrArg String.data h
  have h3 := congrArg List.length h2
  simpa using h3

theorem request_ids_distinct_witness :
    Function.Injective uuidStream ∧
    (idRun uuidStream 3 ⟨0, 0⟩).Pairwise (fun a b => a ≠ b) :=
  ⟨uuidStream_injective,
    (request_ids_distinct uuidStream uuidStream_injective).1 3 ⟨0, 0⟩⟩

/-- Claim C6. For the derived endpoint createChannel(E, t): posting v posts
exactly `{channel:t, payload:v}` on E; an incoming message m on E is
surfaced to the derived endpoint's listeners iff m is truthy, of object type
(a non-null object) and m.channel === t, the surfaced value being m.payload;
a value posted on E/t round-trips to E/t's own listeners; and listeners of
createChannel(E, u) with u ≠ t never observe it. -/
theorem createChannel_spec (t u : RId) (v w : JSVal) (m : JSVal) (h : u ≠ t) :
    channelPost t v = JSVal.obj [("channel", ridVal t), ("payload", v)] ∧
    (channelSurface t m = some w ↔
      truthy m = true ∧ jsTypeof m = "object" ∧
        ridEqVal t (jsGet m "channel") = true ∧ w = jsGet m "payload") ∧
    channelSurface t (channelPost t v) = some v ∧
    channelSurface u (channelPost t v) = none := by
  refine ⟨rfl, ?_, ?_, ?_⟩
  · constructor
    · intro hs
      unfold channelSurface at hs
      by_cases hcond :
          (truthy m && jsTypeof m == "object" && ridEqVal t (jsGet m "channel"))
            = true
      · rw [if_pos hcond] at hs
        rw [Option.some.injEq] at hs
        simp only [Bool.and_eq_true, beq_iff_eq] at hcond
        exact ⟨hcond.1.1, hcond.1.2, hcond.2, hs.symm⟩
      · rw [if_neg hcond] at hs
        cases hs
    · rintro ⟨a, b, c, d⟩
      unfold channelSurface
      rw [if_pos (by simp [a, b, c]), d]
  · have hte : ridEqVal t (ridVal t) = true := (ridEqVal_ridVal t t).2 rfl
    simp [channelPost, channelSurface, jsGet, fieldLookup, truthy, jsTypeof, hte]
  · have hue : ridEqVal u (ridVal t) = false := by
      cases hb : ridEqVal u (ridVal t)
      · rfl
      · exact absurd ((ridEqVal_ridVal u t).1 hb) h
    simp [channelPost, channelSurface, jsGet, fieldLookup, truthy, jsTypeof, hue]

theorem createChannel_spec_witness :
    (RId.num 2 ≠ RId.num 1) ∧
    channelSurface (RId.num 1) (channelPost (RId.num 1) (.str "hi"))
      = some (.str "hi") ∧
    channelSurface (RId.num 2) (channelPost (RId.num 1) (.str "hi")) = none :=
  ⟨by decide,
    (createChannel_spec (RId.num 1) (RId.num 2) (.str "hi") JSVal.undefined
      JSVal.undefined (by decide)).2.2.1,
    (createChannel_spec (RId.num 1) (RId.num 2) (.str "hi") JSVal.undefined
      JSVal.undefined (by decide)).2.2.2⟩

/-- The claim-side predicate for C8: v carries a function among the own
enumerable values at its top level (fields of an object, elements of an
array; nothing else has own enumerable values). -/
def hasTopFn (v : JSVal) : Bool :=
  match v with
  | .obj fields => hasFnValue fields
  | .arr es => es.any isFunction
  | _ => false

/-- Claim C8. For every value v that is not a function and carries no
function among its own enumerable top-level values, the codec inlines it —
wrapArg yields `{type:"any", data:v}` — and decoding that encoding returns
exactly v, so decode ∘ encode is the identity on the inline fragment. -/
theorem encode_decode_inline (v : JSVal) (fresh : RId)
    (h1 : isFunction v = false) (h2 : hasTopFn v = false) :
    wrapArg v fresh false = anyObj v ∧
      decodeArg (wrapArg v fresh false) = .ok (.inline v) := by
  have hw : mustWrap v false = false := by
    cases v <;> simp_all [mustWrap, isFunction, truthy, jsTypeof, isArr,
      markedObj, hasTopFn]
  have he : wrapArg v fresh false = anyObj v := by
    simp [wrapArg, hw]
  refine ⟨he, ?_⟩
  rw [he]
  simp [anyObj, decodeArg, jsGet, fieldLookup, strictEqStr]

theorem encode_decode_inline_witness :
    isFunction (JSVal.obj [("a", .num 1)]) = false ∧
    hasTopFn (JSVal.obj [("a", .num 1)]) = false ∧
    decodeArg (wrapArg (JSVal.obj [("a", .num 1)]) (.num 9) false)
      = .ok (.inline (JSVal.obj [("a", .num 1)])) :=
  ⟨rfl, rfl,
    (encode_decode_inline (JSVal.obj [("a", .num 1)]) (.num 9) rfl rfl).2⟩

end Comlink
